import Mathlib

/-!
Verification development for the traceql query-language core of this
repository: the typed value model, the span predicate evaluator, the pipeline
evaluator and the storage-request extraction layer.

Embedding conventions.
* Definitions marked "Embeds ..." are translated from the Go source files
  under src/ (src/unnamed/part_000 and src/pkg/traceql/enum_attributes.go).
* The evaluator itself (Static operations, SpansetFilter, SpansetOperation,
  Aggregate, ScalarFilter, Pipeline.evaluate, attribute lookup) is not among
  the source files; only its tests and callers are.  Those definitions are
  marked "Modelled from the spec:" and follow the specification text.
* Go float64 values are idealised as rational numbers; Go machine integers
  carry no overflow in the queries and data the claims exercise, so they are
  embedded as Lean Int/Nat.
* Go panics and evaluator failures are embedded as Option/Except results.
-/

namespace traceql

/-- Embeds the AttributeScope enumeration of enum_attributes.go. -/
inductive AttributeScope
  | none
  | resource
  | span
  | unknown
deriving DecidableEq, Repr

/-- Embeds the Intrinsic enumeration of enum_attributes.go (fourteen
constants, IntrinsicNone first, in declaration order). -/
inductive Intrinsic
  | none
  | duration
  | name
  | status
  | kind
  | childCount
  | parent
  | traceRootService
  | traceRootSpan
  | traceDuration
  | traceID
  | traceStartTime
  | spanID
  | spanStartTime
deriving DecidableEq, Repr

/-- Embeds the Go method Intrinsic.String of enum_attributes.go.  The Go
default branch (a formatted fallback for out-of-range values) is unreachable
for the fourteen declared constants, which are the whole Lean type. -/
def intrinsicToString : Intrinsic → String
  | .none => "none"
  | .duration => "duration"
  | .name => "name"
  | .status => "status"
  | .kind => "kind"
  | .childCount => "childCount"
  | .parent => "parent"
  | .traceRootService => "traceRootService"
  | .traceRootSpan => "traceRootSpan"
  | .traceDuration => "traceDuration"
  | .traceID => "traceID"
  | .traceStartTime => "traceStartTime"
  | .spanID => "spanID"
  | .spanStartTime => "spanStartTime"

/-- Embeds intrinsicFromString of enum_attributes.go: a switch over the
thirteen non-none renderings, with IntrinsicNone as the default result. -/
def intrinsicFromString (s : String) : Intrinsic :=
  if s = "duration" then .duration
  else if s = "name" then .name
  else if s = "status" then .status
  else if s = "kind" then .kind
  else if s = "childCount" then .childCount
  else if s = "parent" then .parent
  else if s = "traceRootService" then .traceRootService
  else if s = "traceRootSpan" then .traceRootSpan
  else if s = "traceDuration" then .traceDuration
  else if s = "traceID" then .traceID
  else if s = "traceStartTime" then .traceStartTime
  else if s = "spanID" then .spanID
  else if s = "spanStartTime" then .spanStartTime
  else .none

/-- Modelled from the spec (section 3, Static): the three-valued status
enumeration. -/
inductive StatusVal
  | error
  | ok
  | unset
deriving DecidableEq, Repr

/-- Modelled from the spec (section 3, Static): the span-kind enumeration. -/
inductive KindVal
  | unspecified
  | internal
  | server
  | client
  | producer
  | consumer
deriving DecidableEq, Repr

/-- Modelled from the spec (section 3, Static): the tagged value sum.  Go
float64 is idealised as Rat; Duration is its nanosecond count as an
integer. -/
inductive Static
  | nil
  | int (i : Int)
  | float (f : Rat)
  | str (s : String)
  | bool (b : Bool)
  | duration (ns : Int)
  | status (st : StatusVal)
  | kind (k : KindVal)
deriving DecidableEq, Repr

/-- Modelled from the spec (section 3, Attribute): the scoped attribute key
with its intrinsic tag.  The Go struct also carries a Parent flag, unused by
the specified behaviour, which is omitted here. -/
structure Attribute where
  scope : AttributeScope
  name : String
  intrinsic : Intrinsic
deriving DecidableEq, Repr

/-- Modelled from the spec: the unscoped attribute constructor used by the
tests (NewAttribute, declared outside src/). -/
def NewAttribute (name : String) : Attribute :=
  ⟨AttributeScope.none, name, Intrinsic.none⟩

/-- Modelled from the spec: the scoped attribute constructor used by the
tests (NewScopedAttribute, declared outside src/; its Parent flag is
omitted). -/
def NewScopedAttribute (scope : AttributeScope) (name : String) : Attribute :=
  ⟨scope, name, Intrinsic.none⟩

/-- Modelled from the spec: the intrinsic attribute constructor used by
SearchMetaConditions (NewIntrinsic, declared outside src/).  The name field
carries the rendering of the intrinsic. -/
def NewIntrinsic (i : Intrinsic) : Attribute :=
  ⟨AttributeScope.none, intrinsicToString i, i⟩

/-- Modelled from the spec (sections 4.1 and 6): the operator enumeration.
The regex operators are handled by an external matcher and are outside the
scope of the claims, so they are not part of this embedding. -/
inductive Operator
  | OpNone
  | OpAdd
  | OpSub
  | OpDiv
  | OpMod
  | OpMult
  | OpEqual
  | OpNotEqual
  | OpGreater
  | OpGreaterEqual
  | OpLess
  | OpLessEqual
  | OpPower
  | OpAnd
  | OpOr
  | OpNot
deriving DecidableEq, Repr

/-- Modelled from the spec: comparison-operator discriminator. -/
def isCompOp : Operator → Bool
  | .OpEqual | .OpNotEqual | .OpGreater | .OpGreaterEqual | .OpLess | .OpLessEqual => true
  | _ => false

/-- Modelled from the spec: arithmetic-operator discriminator. -/
def isArithOp : Operator → Bool
  | .OpAdd | .OpSub | .OpDiv | .OpMod | .OpMult | .OpPower => true
  | _ => false

/-- Modelled from the spec (section 3): numeric promotion of Int, Float and
Duration to one numeric carrier (Go promotes to float64; here Rat). -/
def asFloat : Static → Option Rat
  | .int i => some (i : Rat)
  | .float f => some f
  | .duration ns => some (ns : Rat)
  | _ => none

/-- Modelled from the spec: numeric-kind discriminator (Int, Float,
Duration). -/
def isNumericTag : Static → Bool
  | .int _ | .float _ | .duration _ => true
  | _ => false

/-- Modelled from the spec (section 4.1): comparison of two promoted numeric
values.  The greater-than forms are written as the flipped less-than forms,
exactly as promotion to one carrier makes them. -/
def compRat : Operator → Rat → Rat → Bool
  | .OpEqual, a, b => decide (a = b)
  | .OpNotEqual, a, b => !(decide (a = b))
  | .OpLess, a, b => decide (a < b)
  | .OpLessEqual, a, b => decide (a ≤ b)
  | .OpGreater, a, b => decide (b < a)
  | .OpGreaterEqual, a, b => decide (b ≤ a)
  | _, _, _ => false

/-- Modelled from the spec (section 4.1): same-kind comparison outcome given
the equality verdict; order operators on non-numeric kinds are a
non-match. -/
def compSame (op : Operator) (eq : Bool) : Bool :=
  match op with
  | .OpEqual => eq
  | .OpNotEqual => !eq
  | _ => false

/-- Modelled from the spec (sections 3 and 4.1): comparison fallback for
operand pairs that are not both numeric.  Same-kind strings, booleans,
statuses and kinds compare by value for equality; every other pairing is a
non-match except OpNotEqual with exactly one Nil side, which is true. -/
def compFallback (op : Operator) (l r : Static) : Static :=
  match l, r with
  | .str a, .str b => .bool (compSame op (decide (a = b)))
  | .bool a, .bool b => .bool (compSame op (decide (a = b)))
  | .status a, .status b => .bool (compSame op (decide (a = b)))
  | .kind a, .kind b => .bool (compSame op (decide (a = b)))
  | _, _ => .bool (decide (op = .OpNotEqual) && (decide (l = .nil) ^^ decide (r = .nil)))

/-- Modelled from the spec: truncation toward zero, as Go float-to-integer
conversion does. -/
def ratTrunc (q : Rat) : Int :=
  if 0 ≤ q then ⌊q⌋ else -⌊-q⌋

/-- Modelled from the spec: rational exponentiation for an integral exponent
(Go uses float64 pow; a non-integral exponent leaves the rational carrier and
is embedded as Nil). -/
def ratPow (a : Rat) (b : Rat) : Option Rat :=
  if b.den = 1 then
    if 0 ≤ b.num then some (a ^ b.num.toNat) else some (a ^ (-b.num).toNat)⁻¹
  else none

/-- Modelled from the spec: duration-kind discriminator. -/
def isDurTag : Static → Bool
  | .duration _ => true
  | _ => false

/-- Modelled from the spec: integer-kind discriminator. -/
def isIntTag : Static → Bool
  | .int _ => true
  | _ => false

/-- Modelled from the spec (sections 3 and 4.1): arithmetic on two promoted
numeric operands.  Modulo by zero is Nil; division by zero and non-integral
exponentiation leave the rational carrier (Go yields IEEE infinity or NaN
there, an outcome the spec marks as one callers must not rely on) and are
embedded as Nil.  The result kind follows the spec: Duration plus or minus
Duration is Duration, Duration scaled or divided by a number is Duration,
two Ints with an integral result stay Int, anything else is Float. -/
def arithResult (op : Operator) (l r : Static) (a b : Rat) : Static :=
  let q? : Option Rat :=
    match op with
    | .OpAdd => some (a + b)
    | .OpSub => some (a - b)
    | .OpMult => some (a * b)
    | .OpDiv => if b = 0 then none else some (a / b)
    | .OpMod => if b = 0 then none else some (a - b * (ratTrunc (a / b) : Rat))
    | .OpPower => ratPow a b
    | _ => none
  match q? with
  | none => .nil
  | some q =>
    if (isDurTag l && isDurTag r && (op = Operator.OpAdd || op = Operator.OpSub))
        || (isDurTag l && !isDurTag r && (op = Operator.OpMult || op = Operator.OpDiv))
        || (!isDurTag l && isDurTag r && op = Operator.OpMult) then
      .duration (ratTrunc q)
    else if isIntTag l && isIntTag r && q.den = 1 then .int q.num
    else .float q

/-- Modelled from the spec (section 4.1): logical truthiness; a non-Bool
operand coerces to false. -/
def truthy : Static → Bool
  | .bool b => b
  | _ => false

/-- Modelled from the spec (section 4.1, Static binary execution): comparison
by numeric promotion when both sides are numeric, same-kind value comparison
otherwise, with the Nil rules; arithmetic on numeric operands; logical
composition; everything else a Nil non-match. -/
def execBinary (op : Operator) (l r : Static) : Static :=
  if isCompOp op then
    match asFloat l, asFloat r with
    | some a, some b => .bool (compRat op a b)
    | _, _ => compFallback op l r
  else if isArithOp op then
    match asFloat l, asFloat r with
    | some a, some b => arithResult op l r a b
    | _, _ => .nil
  else if op = Operator.OpAnd then .bool (truthy l && truthy r)
  else if op = Operator.OpOr then .bool (truthy l || truthy r)
  else .nil

/-- Modelled from the spec (section 4.1, Static unary execution): negation of
a numeric value, boolean inversion, Nil otherwise. -/
def execUnary (op : Operator) (v : Static) : Static :=
  match op, v with
  | .OpSub, .int i => .int (-i)
  | .OpSub, .float f => .float (-f)
  | .OpSub, .duration ns => .duration (-ns)
  | .OpNot, .bool b => .bool (!b)
  | _, _ => .nil

/-- Modelled from the spec (section 3, Span): the read-only span view with
its four accessors.  The tests realise it as a record of an id, an attribute
map and the two direct time accessors; the attribute map is embedded as an
association list and the id as a byte list. -/
structure Span where
  id : List Nat
  attributes : List (Attribute × Static)
  startTimeUnixNanos : Nat
  durationNanos : Nat
deriving DecidableEq, Repr

/-- Embeds the Spanset struct of src/unnamed/part_000.  The Attributes map is
an association list; the outer Option mirrors the Go distinction between a
nil map and an allocated one.  Field defaults mirror Go zero values. -/
structure Spanset where
  Scalar : Static := .nil
  Spans : List Span := []
  TraceID : List Nat := []
  RootSpanName : String := ""
  RootServiceName : String := ""
  StartTimeUnixNanos : Nat := 0
  DurationNanos : Nat := 0
  Attributes : Option (List (String × Static)) := Option.none
deriving DecidableEq, Repr

/-- Modelled from Go map reads: the value stored at a string key, first
entry winning. -/
def assocGet (k : String) : List (String × Static) → Option Static
  | [] => Option.none
  | (k2, v) :: rest => if k2 = k then some v else assocGet k rest

/-- Modelled from Go map writes: whether a key is present. -/
def hasKey (k : String) : List (String × Static) → Bool
  | [] => false
  | (k2, _) :: rest => decide (k2 = k) || hasKey k rest

/-- Modelled from Go map writes: overwrite the value stored at a present
key, keeping its position. -/
def setKey (k : String) (v : Static) : List (String × Static) → List (String × Static)
  | [] => []
  | (k2, v2) :: rest =>
    if k2 = k then (k2, v) :: setKey k v rest else (k2, v2) :: setKey k v rest

/-- Modelled from Go map assignment m[k] = v: overwrite when present, append
when absent. -/
def insertAssoc (k : String) (v : Static) (m : List (String × Static)) :
    List (String × Static) :=
  if hasKey k m then setKey k v m else m ++ [(k, v)]

/-- Embeds Spanset.AddAttribute of src/unnamed/part_000: allocate the map
when it is nil, then store the value at the key. -/
def Spanset.AddAttribute (s : Spanset) (key : String) (value : Static) : Spanset :=
  match s.Attributes with
  | Option.none => { s with Attributes := some [(key, value)] }
  | some m => { s with Attributes := some (insertAssoc key value m) }

/-- Modelled from Go map reads on the Spanset.Attributes field (a read from
a nil map finds nothing). -/
def Spanset.attrValue (s : Spanset) (k : String) : Option Static :=
  match s.Attributes with
  | Option.none => Option.none
  | some m => assocGet k m

/-- Embeds Spanset.clone of src/unnamed/part_000: a fresh spanset with every
field copied and the attribute map re-allocated; spans are shared.  In this
pure embedding it is the identity on the represented value. -/
def Spanset.clone (s : Spanset) : Spanset :=
  { Scalar := s.Scalar
    Spans := s.Spans
    TraceID := s.TraceID
    RootSpanName := s.RootSpanName
    RootServiceName := s.RootServiceName
    StartTimeUnixNanos := s.StartTimeUnixNanos
    DurationNanos := s.DurationNanos
    Attributes := s.Attributes }

/-- Modelled from the spec (section 3, attribute lookup step 1): first value
stored under a key carrying the given intrinsic tag. -/
def findIntrinsicTag (i : Intrinsic) : List (Attribute × Static) → Option Static
  | [] => Option.none
  | (k, v) :: rest => if k.intrinsic = i then some v else findIntrinsicTag i rest

/-- Modelled from the spec (section 3, attribute lookup step 2): the value
stored under an exact attribute key. -/
def findExactKey (key : Attribute) : List (Attribute × Static) → Option Static
  | [] => Option.none
  | (k, v) :: rest => if k = key then some v else findExactKey key rest

/-- Modelled from the spec (section 3, attribute lookup step 3): first value
whose key has the given name, in any scope. -/
def findNameAny (n : String) : List (Attribute × Static) → Option Static
  | [] => Option.none
  | (k, v) :: rest => if k.name = n then some v else findNameAny n rest

/-- Modelled from the spec (section 3, Span): the direct accessors backing
the duration and spanStartTime intrinsics when the attribute map lacks them.
The spanID backing returns bytes, which the Static sum cannot carry, so it
is embedded as Nil. -/
def intrinsicBacking (sp : Span) (i : Intrinsic) : Static :=
  match i with
  | .duration => .duration (sp.durationNanos : Int)
  | .spanStartTime => .int (sp.startTimeUnixNanos : Int)
  | _ => .nil

/-- Modelled from the spec (section 3, attribute lookup): intrinsics look up
by tag with the direct-accessor backing; Span and Resource scopes look up by
exact key; scope None tries Span, then Resource, then a name-only match in
any scope; a miss is Nil. -/
def lookupAttribute (sp : Span) (a : Attribute) : Static :=
  if a.intrinsic ≠ Intrinsic.none then
    match findIntrinsicTag a.intrinsic sp.attributes with
    | some v => v
    | Option.none => intrinsicBacking sp a.intrinsic
  else
    match a.scope with
    | .none =>
      match findExactKey ⟨.span, a.name, .none⟩ sp.attributes with
      | some v => v
      | Option.none =>
        match findExactKey ⟨.resource, a.name, .none⟩ sp.attributes with
        | some v => v
        | Option.none => (findNameAny a.name sp.attributes).getD .nil
    | sc => (findExactKey ⟨sc, a.name, .none⟩ sp.attributes).getD .nil

/-- Modelled from the spec (section 3, AST): span-level expressions. -/
inductive Expression
  | static (v : Static)
  | attr (a : Attribute)
  | binOp (op : Operator) (lhs rhs : Expression)
  | unaryOp (op : Operator) (e : Expression)
deriving DecidableEq, Repr

/-- Modelled from the spec (section 4.2): bottom-up evaluation of an
expression against one span. -/
def evalExpr (sp : Span) : Expression → Static
  | .static v => v
  | .attr a => lookupAttribute sp a
  | .binOp op l r => execBinary op (evalExpr sp l) (evalExpr sp r)
  | .unaryOp op e => execUnary op (evalExpr sp e)

/-- Modelled from the spec (section 3, AST): the aggregation kinds. -/
inductive AggregateKind
  | count
  | sum
  | avg
  | min
  | max
deriving DecidableEq, Repr

/-- Modelled from the spec: textual form of an aggregation kind. -/
def AggregateKind.toName : AggregateKind → String
  | .count => "count"
  | .sum => "sum"
  | .avg => "avg"
  | .min => "min"
  | .max => "max"

/-- Modelled from the spec (section 4.1, Printing): textual form of an
operator. -/
def opToString : Operator → String
  | .OpNone => "none"
  | .OpAdd => "+"
  | .OpSub => "-"
  | .OpDiv => "/"
  | .OpMod => "%"
  | .OpMult => "*"
  | .OpEqual => "="
  | .OpNotEqual => "!="
  | .OpGreater => ">"
  | .OpGreaterEqual => ">="
  | .OpLess => "<"
  | .OpLessEqual => "<="
  | .OpPower => "^"
  | .OpAnd => "&&"
  | .OpOr => "||"
  | .OpNot => "!"

/-- Modelled from the spec (section 4.1, Printing): canonical textual form of
a value.  Durations always render in nanoseconds here: the original literal
tier is not part of the value, an idealisation no claim exercises. -/
def staticToString : Static → String
  | .nil => "nil"
  | .int i => toString i
  | .float q => toString q.num ++ "/" ++ toString q.den
  | .str s => "\"" ++ s ++ "\""
  | .bool b => if b then "true" else "false"
  | .duration ns => toString ns ++ "ns"
  | .status .error => "error"
  | .status .ok => "ok"
  | .status .unset => "unset"
  | .kind .unspecified => "unspecified"
  | .kind .internal => "internal"
  | .kind .server => "server"
  | .kind .client => "client"
  | .kind .producer => "producer"
  | .kind .consumer => "consumer"

/-- Modelled from the spec (section 6, Query grammar): textual form of an
attribute reference. -/
def attrToString (a : Attribute) : String :=
  if a.intrinsic ≠ Intrinsic.none then intrinsicToString a.intrinsic
  else
    match a.scope with
    | .none => "." ++ a.name
    | .span => "span." ++ a.name
    | .resource => "resource." ++ a.name
    | .unknown => "?." ++ a.name

/-- Modelled from the spec (section 4.1, Printing): textual form of an
expression, used for the canonical aggregate-attribute keys. -/
def exprToString : Expression → String
  | .static v => staticToString v
  | .attr a => attrToString a
  | .binOp op l r => "(" ++ exprToString l ++ " " ++ opToString op ++ " " ++ exprToString r ++ ")"
  | .unaryOp op e => opToString op ++ exprToString e

/-- Modelled from the spec (section 4.3, Aggregate): the canonical textual
key under which an aggregation result is surfaced, such as count(). -/
def canonicalName (k : AggregateKind) (e : Option Expression) : String :=
  k.toName ++ "(" ++ (match e with | Option.none => "" | some ex => exprToString ex) ++ ")"

/-- Modelled from the spec: the numeric kind of an aggregation
contribution. -/
inductive NumUnit
  | int
  | float
  | dur
deriving DecidableEq, Repr

/-- Modelled from the spec (section 4.3, Aggregate): a numeric contribution
with its kind; non-numeric values and Nil contribute nothing. -/
def asNumeric : Static → Option (Rat × NumUnit)
  | .int i => some ((i : Rat), .int)
  | .float q => some (q, .float)
  | .duration ns => some ((ns : Rat), .dur)
  | _ => Option.none

/-- Modelled from the spec (section 4.3, Aggregate): the scalar of one
spanset.  count is the span count; sum, avg, min and max accumulate the
numeric contributions of the expression over the spans, ignoring Nil, with
the avg divisor the contribution count.  The result carries the unit of the
contributions: all Duration gives Duration, all Int with an integral value
gives Int, otherwise Float; no contribution gives Nil.  A fractional
Duration result truncates to whole nanoseconds as Go conversion does. -/
def aggregateValue (k : AggregateKind) (e : Option Expression) (ss : Spanset) : Static :=
  match k with
  | .count => .int (ss.Spans.length : Int)
  | _ =>
    let ex := e.getD (.static .nil)
    match ss.Spans.filterMap (fun sp => asNumeric (evalExpr sp ex)) with
    | [] => .nil
    | v0 :: vrest =>
      let nums := v0.1 :: vrest.map Prod.fst
      let q : Rat :=
        match k with
        | .avg => nums.sum / (nums.length : Rat)
        | .min => List.foldl Min.min v0.1 (vrest.map Prod.fst)
        | .max => List.foldl Max.max v0.1 (vrest.map Prod.fst)
        | _ => nums.sum
      let allDur := (v0 :: vrest).all (fun p => decide (p.2 = NumUnit.dur))
      let allInt := (v0 :: vrest).all (fun p => decide (p.2 = NumUnit.int))
      if allDur then .duration (ratTrunc q)
      else if allInt && decide (q.den = 1) then .int q.num
      else .float q

/-- Modelled from the spec (section 4.3, Aggregate): the aggregation result
is attached as the spanset scalar and added to its attribute map under the
canonical key, using the source AddAttribute. -/
def applyAggregate (k : AggregateKind) (e : Option Expression) (ss : Spanset) : Spanset :=
  let v := aggregateValue k e ss
  Spanset.AddAttribute { ss with Scalar := v } (canonicalName k e) v

/-- Modelled from the spec (section 3, AST): a scalar operand of a scalar
filter, either a literal or an aggregation. -/
inductive ScalarExpr
  | static (v : Static)
  | aggregate (k : AggregateKind) (e : Option Expression)
deriving DecidableEq, Repr

/-- Modelled from the spec (section 4.3): evaluating a scalar operand
against one spanset; an aggregation also rewrites the spanset (scalar and
canonical attribute). -/
def evalScalarSide (side : ScalarExpr) (ss : Spanset) : Static × Spanset :=
  match side with
  | .static v => (v, ss)
  | .aggregate k e =>
    let ss2 := applyAggregate k e ss
    (ss2.Scalar, ss2)

/-- Modelled from the spec (section 4.3, ScalarFilter): keep the spanset iff
the comparison of the two scalar sides holds. -/
def scalarFilterOne (l : ScalarExpr) (op : Operator) (r : ScalarExpr) (ss : Spanset) :
    List Spanset :=
  let p1 := evalScalarSide l ss
  let p2 := evalScalarSide r p1.2
  if execBinary op p1.1 p2.1 = Static.bool true then [p2.2] else []

/-- Modelled from the spec (section 4.3, Filter): retain the spans for which
the predicate evaluates to Bool true; trace-level fields are preserved. -/
def filterSpanset (e : Expression) (ss : Spanset) : Spanset :=
  { ss with Spans := ss.Spans.filter (fun sp => decide (evalExpr sp e = Static.bool true)) }

/-- Modelled from the spec (section 4.3, set operations): keep the first
span for each id, walking the list with the set of ids already seen. -/
def dedupByIdAux (seen : List (List Nat)) : List Span → List Span
  | [] => []
  | s :: rest =>
    if s.id ∈ seen then dedupByIdAux seen rest
    else s :: dedupByIdAux (s.id :: seen) rest

/-- Modelled from the spec (section 4.3, set operations): duplicates by span
id removed, first occurrence winning. -/
def dedupById (l : List Span) : List Span :=
  dedupByIdAux [] l

/-- Modelled from the spec: all spans of a spanset list, in order. -/
def spansOf (l : List Spanset) : List Span :=
  (l.map Spanset.Spans).flatten

/-- Modelled from the spec (section 4.3, set operations): the merged span
list is the right-hand side spans followed by the left-hand side spans, with
duplicates by span id removed, the right-hand side winning. -/
def uniqueSpans (lhs rhs : List Spanset) : List Span :=
  dedupById (spansOf rhs ++ spansOf lhs)

/-- Modelled from the spec (section 7): evaluator failures that surface; the
structural spanset operators are unsupported. -/
inductive EvalError
  | unsupported
deriving DecidableEq, Repr

/-- Modelled from the spec (section 3, AST): the spanset operators.  The
structural and arithmetic forms are accepted by the grammar but unsupported
by the evaluator. -/
inductive SpansetOpKind
  | and
  | or
  | childOf
  | ancestorOf
  | notChildOf
  | notAncestorOf
  | add
  | sub
deriving DecidableEq, Repr

/-- Modelled from the spec (section 3, AST): a pipeline stage. -/
inductive SpansetExpr
  | filter (e : Expression)
  | spansetOp (op : SpansetOpKind) (lhs rhs : SpansetExpr)
  | scalarFilter (lhs : ScalarExpr) (op : Operator) (rhs : ScalarExpr)
  | aggregate (k : AggregateKind) (e : Option Expression)
deriving DecidableEq, Repr

/-- Modelled from the spec (section 4.3): evaluation of one stage on one
spanset.  A filter drops the spanset when no span is retained; an
aggregation attaches its scalar; a spanset operation evaluates both sides on
the spanset, emits for the conjunction iff both sides retain something and
for the union iff either does, merging with uniqueSpans and preserving
trace-level fields; the structural forms report unsupported. -/
def SpansetExpr.evalOne : SpansetExpr → Spanset → Except EvalError (List Spanset)
  | .filter e, ss =>
    let ss2 := filterSpanset e ss
    .ok (if ss2.Spans.isEmpty then [] else [ss2])
  | .aggregate k e, ss => .ok [applyAggregate k e ss]
  | .scalarFilter l op r, ss => .ok (scalarFilterOne l op r ss)
  | .spansetOp sop l r, ss =>
    match sop with
    | .and =>
      match l.evalOne ss, r.evalOne ss with
      | .ok L, .ok R =>
        .ok (if L.isEmpty || R.isEmpty then [] else [{ ss with Spans := uniqueSpans L R }])
      | .error er, _ => .error er
      | _, .error er => .error er
    | .or =>
      match l.evalOne ss, r.evalOne ss with
      | .ok L, .ok R =>
        .ok (if L.isEmpty && R.isEmpty then [] else [{ ss with Spans := uniqueSpans L R }])
      | .error er, _ => .error er
      | _, .error er => .error er
    | _ => .error .unsupported

/-- Modelled from the spec (section 4.3): a stage maps over the incoming
spansets one at a time, concatenating the per-spanset results and keeping
their order. -/
def SpansetExpr.evaluate (e : SpansetExpr) : List Spanset → Except EvalError (List Spanset)
  | [] => .ok []
  | ss :: rest =>
    match e.evalOne ss, e.evaluate rest with
    | .ok h, .ok t => .ok (h ++ t)
    | .error er, _ => .error er
    | _, .error er => .error er

/-- Modelled from the spec (section 4.3): run the stages in order, each
receiving the previous output. -/
def evalStages : List SpansetExpr → List Spanset → Except EvalError (List Spanset)
  | [], input => .ok input
  | st :: rest, input =>
    match st.evaluate input with
    | .ok out => evalStages rest out
    | .error er => .error er

/-- Modelled from the spec (section 3, AST): a pipeline is the ordered
sequence of its stages. -/
structure Pipeline where
  Elements : List SpansetExpr
deriving DecidableEq, Repr

/-- Modelled from the spec (section 4.3): pipeline evaluation. -/
def Pipeline.evaluate (p : Pipeline) (input : List Spanset) :
    Except EvalError (List Spanset) :=
  evalStages p.Elements input

/-- Embeds the Operands type of src/unnamed/part_000. -/
abbrev Operands := List Static

/-- Embeds the Condition struct of src/unnamed/part_000. -/
structure Condition where
  Attribute : Attribute
  Op : Operator
  Operands : Operands
deriving DecidableEq, Repr

/-- Embeds SearchMetaConditions of src/unnamed/part_000: the canonical
metadata column set, each an intrinsic fetched unconditionally. -/
def SearchMetaConditions : List Condition :=
  [ ⟨NewIntrinsic .traceRootService, .OpNone, []⟩,
    ⟨NewIntrinsic .traceRootSpan, .OpNone, []⟩,
    ⟨NewIntrinsic .traceDuration, .OpNone, []⟩,
    ⟨NewIntrinsic .traceID, .OpNone, []⟩,
    ⟨NewIntrinsic .traceStartTime, .OpNone, []⟩,
    ⟨NewIntrinsic .spanID, .OpNone, []⟩,
    ⟨NewIntrinsic .spanStartTime, .OpNone, []⟩,
    ⟨NewIntrinsic .duration, .OpNone, []⟩ ]

/-- Embeds the FetchSpansRequest struct of src/unnamed/part_000.  The
SecondPass callback maps a spanset to a spanset list or fails; a nil Go
function value is the Option.none case.  Field defaults mirror Go zero
values. -/
structure FetchSpansRequest where
  StartTimeUnixNanos : Nat := 0
  EndTimeUnixNanos : Nat := 0
  Conditions : List Condition := []
  AllConditions : Bool := false
  SecondPass : Option (Spanset → Except EvalError (List Spanset)) := Option.none
  SecondPassConditions : List Condition := []

/-- Modelled from the spec (section 4.4): condition hints contributed by a
span-level expression, with the flag telling whether the all-conditions hint
survives.  A conjunction merges both sides; a disjunction keeps the hints
but clears the flag; a comparison of an attribute against a literal is one
hint; any other construct contributes nothing and clears the flag. -/
def exprConditions : Expression → List Condition × Bool
  | .binOp .OpAnd l r =>
    let pl := exprConditions l
    let pr := exprConditions r
    (pl.1 ++ pr.1, pl.2 && pr.2)
  | .binOp .OpOr l r =>
    let pl := exprConditions l
    let pr := exprConditions r
    (pl.1 ++ pr.1, false)
  | .binOp op (.attr a) (.static v) =>
    if isCompOp op then ([⟨a, op, [v]⟩], true) else ([], false)
  | _ => ([], false)

/-- Modelled from the spec (section 4.4): condition hints of one stage.  A
filter contributes its expression hints; a spanset operation merges both
sides and keeps the all-conditions hint only for the conjunction; an
aggregation or scalar filter is treated conservatively. -/
def SpansetExpr.extractConditions : SpansetExpr → List Condition × Bool
  | .filter e => exprConditions e
  | .spansetOp sop l r =>
    let pl := l.extractConditions
    let pr := r.extractConditions
    (pl.1 ++ pr.1, pl.2 && pr.2 && decide (sop = SpansetOpKind.and))
  | .scalarFilter _ _ _ => ([], false)
  | .aggregate _ _ => ([], false)

/-- Modelled from the spec (section 4.4): the extractor walks the pipeline,
appending each stage's hints to the request and clearing AllConditions as
soon as a stage does not preserve it. -/
def Pipeline.extractConditions (p : Pipeline) (req : FetchSpansRequest) :
    FetchSpansRequest :=
  let pairs := p.Elements.map SpansetExpr.extractConditions
  { req with
    Conditions := req.Conditions ++ (pairs.map Prod.fst).flatten
    AllConditions := req.AllConditions && (pairs.map Prod.snd).all id }

/-- Embeds ExtractFetchSpansRequest of src/unnamed/part_000, parameterised by
the parser (the grammar driver is outside this spec; only its output, a
pipeline or a parse error, is specified): parse the query, then walk the
pipeline over a request whose AllConditions hint starts true. -/
def ExtractFetchSpansRequest (parse : String → Except String Pipeline)
    (query : String) : Except String FetchSpansRequest :=
  match parse query with
  | .error e => .error e
  | .ok ast => .ok (ast.extractConditions { AllConditions := true })

/-- Embeds the identity second-pass callback installed by
MustExtractFetchSpansRequestWithMetadata of src/unnamed/part_000. -/
def secondPassIdentity : Spanset → Except EvalError (List Spanset) :=
  fun s => .ok [s]

/-- Embeds MustExtractFetchSpansRequestWithMetadata of src/unnamed/part_000,
parameterised by the parser.  The Go function panics on a parse error; the
panic is embedded as Option.none. -/
def MustExtractFetchSpansRequestWithMetadata (parse : String → Except String Pipeline)
    (query : String) : Option FetchSpansRequest :=
  match ExtractFetchSpansRequest parse query with
  | .error _ => Option.none
  | .ok c =>
    some { c with
      SecondPass := some secondPassIdentity
      SecondPassConditions := SearchMetaConditions }

/-- Concrete span builder used by the test scenarios (the tests' mockSpan,
with zero start time and duration). -/
def mkSpan (id : List Nat) (attrs : List (Attribute × Static)) : Span :=
  ⟨id, attrs, 0, 0⟩

/-- AST of the query stage filtering on .foo equal to a string literal, as in
the tests. -/
def qFooEq (v : String) : SpansetExpr :=
  .filter (.binOp .OpEqual (.attr (NewAttribute "foo")) (.static (.str v)))

/-- AST of the query stage filtering on .foo equal to an arbitrary literal. -/
def qFooEqV (v : Static) : SpansetExpr :=
  .filter (.binOp .OpEqual (.attr (NewAttribute "foo")) (.static v))

/-- Test span with id 1 and foo equal to a. -/
def c2s1 : Span := mkSpan [1] [(NewAttribute "foo", .str "a")]

/-- Test span with id 2 and foo equal to b. -/
def c2s2 : Span := mkSpan [2] [(NewAttribute "foo", .str "b")]

/-- Test span with id 3 and foo equal to b. -/
def c2s3 : Span := mkSpan [3] [(NewAttribute "foo", .str "b")]

/-- Test span with foo equal to a and no id. -/
def sA : Span := mkSpan [] [(NewAttribute "foo", .str "a")]

/-- Test span with foo equal to b and no id. -/
def sB : Span := mkSpan [] [(NewAttribute "foo", .str "b")]

/-- Second input spanset of the count scenario: two matching spans. -/
def c3In2 : Spanset := { Spans := [sA, sA] }

/-- Test span carrying foo under both Span and Resource scope with distinct
values. -/
def spanBoth : Span :=
  mkSpan []
    [(NewScopedAttribute .span "foo", .str "scope_span"),
     (NewScopedAttribute .resource "foo", .str "scope_resource")]

/-- Test span carrying foo only under Resource scope. -/
def spanResOnly : Span :=
  mkSpan [] [(NewScopedAttribute .resource "foo", .str "scope_resource")]

/-- Test span carrying foo only under Span scope. -/
def spanSpanOnly : Span :=
  mkSpan [] [(NewScopedAttribute .span "foo", .str "scope_span")]

/-- Test span with id 1 and foo equal to Int 1. -/
def si : Span := mkSpan [1] [(NewAttribute "foo", .int 1)]

/-- Test span with id 2 and foo equal to Float 1. -/
def sf : Span := mkSpan [2] [(NewAttribute "foo", .float 1)]

/-- Test span with id 3 and foo equal to Duration 1ns. -/
def sd : Span := mkSpan [3] [(NewAttribute "foo", .duration 1)]

/-- The zero-valued spanset. -/
def emptySpanset : Spanset := {}

/-- A stub parser that accepts every query as the empty pipeline. -/
def parseOkEmpty : String → Except String Pipeline := fun _ => .ok ⟨[]⟩

/-- A stub parser that rejects every query. -/
def parseFail : String → Except String Pipeline := fun _ => .error "parse error"

/-! Helper lemmas about the association-list map operations, the
deduplication of spans by id, and the stage evaluators.  These are shared
infrastructure for the claim theorems below. -/

theorem assocGet_setKey_self (k : String) (v : Static) (m : List (String × Static))
    (h : hasKey k m = true) : assocGet k (setKey k v m) = some v := by
  induction m with
  | nil => simp [hasKey] at h
  | cons p rest ih =>
    obtain ⟨k2, v2⟩ := p
    by_cases hk : k2 = k
    · simp [setKey, hk, assocGet]
    · simp [setKey, hk, assocGet]
      exact ih (by simpa [hasKey, hk] using h)

theorem assocGet_setKey_ne (k k' : String) (v : Static) (m : List (String × Static))
    (h : k' ≠ k) : assocGet k' (setKey k v m) = assocGet k' m := by
  induction m with
  | nil => rfl
  | cons p rest ih =>
    obtain ⟨k2, v2⟩ := p
    by_cases hk : k2 = k
    · subst hk
      have hkk : ¬(k2 = k') := fun e => h e.symm
      simp [setKey, assocGet, hkk, ih]
    · simp only [setKey, hk, if_false, assocGet]
      rw [ih]

theorem assocGet_append_right (k : String) (v : Static) (m : List (String × Static))
    (h : hasKey k m = false) : assocGet k (m ++ [(k, v)]) = some v := by
  induction m with
  | nil => simp [assocGet]
  | cons p rest ih =>
    obtain ⟨k2, v2⟩ := p
    have hk : ¬(k2 = k) := by
      intro e
      simp [hasKey, e] at h
    simp [assocGet, hk]
    exact ih (by simpa [hasKey, hk] using h)

theorem assocGet_append_ne (k k' : String) (v : Static) (m : List (String × Static))
    (h : k' ≠ k) : assocGet k' (m ++ [(k, v)]) = assocGet k' m := by
  induction m with
  | nil =>
    have hkk : ¬(k = k') := fun e => h e.symm
    simp [assocGet, hkk]
  | cons p rest ih =>
    obtain ⟨k2, v2⟩ := p
    by_cases hk : k2 = k'
    · simp [assocGet, hk]
    · simp only [List.cons_append, assocGet, hk, if_false]
      exact ih

theorem assocGet_insert_self (k : String) (v : Static) (m : List (String × Static)) :
    assocGet k (insertAssoc k v m) = some v := by
  unfold insertAssoc
  split
  · exact assocGet_setKey_self k v m (by assumption)
  · next h => exact assocGet_append_right k v m (by simpa using h)

theorem assocGet_insert_ne (k k' : String) (v : Static) (m : List (String × Static))
    (h : k' ≠ k) : assocGet k' (insertAssoc k v m) = assocGet k' m := by
  unfold insertAssoc
  split
  · exact assocGet_setKey_ne k k' v m h
  · exact assocGet_append_ne k k' v m h

theorem AddAttribute_attrValue_self (s : Spanset) (k : String) (v : Static) :
    (s.AddAttribute k v).attrValue k = some v := by
  cases hA : s.Attributes with
  | none => simp [Spanset.AddAttribute, hA, Spanset.attrValue, assocGet]
  | some m => simp [Spanset.AddAttribute, hA, Spanset.attrValue, assocGet_insert_self]

theorem AddAttribute_attrValue_ne (s : Spanset) (k k' : String) (v : Static)
    (h : k' ≠ k) : (s.AddAttribute k v).attrValue k' = s.attrValue k' := by
  cases hA : s.Attributes with
  | none =>
    have h2 : ¬(k = k') := fun e => h e.symm
    simp [Spanset.AddAttribute, hA, Spanset.attrValue, assocGet, h2]
  | some m => simp [Spanset.AddAttribute, hA, Spanset.attrValue, assocGet_insert_ne k k' v m h]

theorem AddAttribute_Scalar (s : Spanset) (k : String) (v : Static) :
    (s.AddAttribute k v).Scalar = s.Scalar := by
  cases hA : s.Attributes <;> simp [Spanset.AddAttribute, hA]

theorem dedupByIdAux_mem_ids (seen : List (List Nat)) (l : List Span) (i : List Nat) :
    i ∈ (dedupByIdAux seen l).map Span.id ↔ (i ∈ l.map Span.id ∧ i ∉ seen) := by
  induction l generalizing seen with
  | nil => simp [dedupByIdAux]
  | cons s rest ih =>
    by_cases h : s.id ∈ seen
    · simp only [dedupByIdAux, h, if_true, List.map_cons, List.mem_cons, ih]
      constructor
      · rintro ⟨h1, h2⟩
        exact ⟨Or.inr h1, h2⟩
      · rintro ⟨h1 | h1, h2⟩
        · exact absurd (h1 ▸ h) h2
        · exact ⟨h1, h2⟩
    · simp only [dedupByIdAux, h, if_false, List.map_cons, List.mem_cons, ih]
      constructor
      · rintro (rfl | ⟨h1, h2⟩)
        · exact ⟨Or.inl rfl, h⟩
        · exact ⟨Or.inr h1, fun hin => h2 (Or.inr hin)⟩
      · rintro ⟨h1 | h1, h2⟩
        · exact Or.inl h1
        · by_cases hi : i = s.id
          · exact Or.inl hi
          · exact Or.inr ⟨h1, fun hc => hc.elim hi h2⟩

theorem dedupByIdAux_nodup (l : List Span) :
    ∀ seen, ((dedupByIdAux seen l).map Span.id).Nodup := by
  induction l with
  | nil => intro seen; simp [dedupByIdAux]
  | cons s rest ih =>
    intro seen
    by_cases h : s.id ∈ seen
    · simpa [dedupByIdAux, h] using ih seen
    · simp only [dedupByIdAux, h, if_false, List.map_cons, List.nodup_cons]
      refine ⟨fun hmem => ?_, ih _⟩
      exact ((dedupByIdAux_mem_ids _ _ _).mp hmem).2 (List.mem_cons_self _ _)

theorem mem_of_mem_dedupByIdAux (l : List Span) (t : Span) :
    ∀ seen, t ∈ dedupByIdAux seen l → t ∈ l := by
  induction l with
  | nil => intro seen h; simp [dedupByIdAux] at h
  | cons s rest ih =>
    intro seen h
    by_cases hs : s.id ∈ seen
    · simp only [dedupByIdAux, hs, if_true] at h
      exact List.mem_cons_of_mem _ (ih _ h)
    · simp only [dedupByIdAux, hs, if_false, List.mem_cons] at h
      rcases h with rfl | h
      · exact List.mem_cons_self _ _
      · exact List.mem_cons_of_mem _ (ih _ h)

theorem aggregate_evaluate (k : AggregateKind) (e : Option Expression)
    (input : List Spanset) :
    (SpansetExpr.aggregate k e).evaluate input = .ok (input.map (applyAggregate k e)) := by
  induction input with
  | nil => rfl
  | cons ss rest ih => simp [SpansetExpr.evaluate, SpansetExpr.evalOne, ih]

theorem filter_evaluate_ok (e : Expression) (input : List Spanset) :
    ∃ out, (SpansetExpr.filter e).evaluate input = .ok out := by
  induction input with
  | nil => exact ⟨[], rfl⟩
  | cons ss rest ih =>
    obtain ⟨out, hout⟩ := ih
    exact ⟨(if (filterSpanset e ss).Spans.isEmpty then [] else [filterSpanset e ss]) ++ out,
      by simp [SpansetExpr.evaluate, SpansetExpr.evalOne, hout]⟩

theorem compRat_eq_symm (x y : Rat) : compRat .OpEqual x y = compRat .OpEqual y x := by
  show decide (x = y) = decide (y = x)
  exact decide_eq_decide.mpr ⟨Eq.symm, Eq.symm⟩

theorem compRat_neq_symm (x y : Rat) :
    compRat .OpNotEqual x y = compRat .OpNotEqual y x :=
  congrArg Bool.not (decide_eq_decide.mpr ⟨Eq.symm, Eq.symm⟩)

theorem asFloat_isSome_of_numeric (a : Static) (h : isNumericTag a = true) :
    ∃ q, asFloat a = some q := by
  cases a <;> first
    | exact ⟨_, rfl⟩
    | simp [isNumericTag] at h

/-! Claim theorems. -/

/-- Claim C2: for the spanset-and operation the spanset of a trace is
emitted iff both sides retain at least one of its spans; the emitted spanset
carries the merged spans, right-hand side retained spans first, then the
left-hand side ones, with duplicates by span id removed (right-hand side
winning, so the merged ids are exactly the union of the retained ids and
appear once each).  In particular the query on .foo equal to a conjoined
with .foo equal to b, over a spanset with spans foo:a, foo:b and a second
spanset with only foo:b, yields exactly one spanset with spans
foo:b, foo:a. -/
theorem spanset_and_spec (lhs rhs : SpansetExpr) (ss : Spanset) (L R : List Spanset)
    (hL : lhs.evalOne ss = .ok L) (hR : rhs.evalOne ss = .ok R) :
    ((SpansetExpr.spansetOp .and lhs rhs).evalOne ss =
      .ok (if L.isEmpty || R.isEmpty then [] else [{ ss with Spans := uniqueSpans L R }]))
    ∧ uniqueSpans L R = dedupById (spansOf R ++ spansOf L)
    ∧ (∀ i, i ∈ (uniqueSpans L R).map Span.id ↔ i ∈ (spansOf R ++ spansOf L).map Span.id)
    ∧ ((uniqueSpans L R).map Span.id).Nodup
    ∧ (∀ t ∈ uniqueSpans L R, t ∈ spansOf R ++ spansOf L)
    ∧ Pipeline.evaluate ⟨[SpansetExpr.spansetOp .and (qFooEq "a") (qFooEq "b")]⟩
        [{ Spans := [c2s1, c2s2] }, { Spans := [c2s3] }] =
        .ok [{ Spans := [c2s2, c2s1] }] := by
  refine ⟨?_, rfl, ?_, dedupByIdAux_nodup _ _, ?_, rfl⟩
  · simp [SpansetExpr.evalOne, hL, hR]
  · intro i
    simpa using dedupByIdAux_mem_ids [] (spansOf R ++ spansOf L) i
  · intro t ht
    exact mem_of_mem_dedupByIdAux _ t [] ht

/-- Claim C2 witness at the concrete test input: the left side retains span
foo:a, the right side retains span foo:b, and the stage emits the merged
spanset. -/
theorem spanset_and_spec_witness :
    (SpansetExpr.spansetOp .and (qFooEq "a") (qFooEq "b")).evalOne { Spans := [c2s1, c2s2] } =
      .ok [{ Spans := [c2s2, c2s1] }] :=
  (spanset_and_spec (qFooEq "a") (qFooEq "b") { Spans := [c2s1, c2s2] }
    [{ Spans := [c2s1] }] [{ Spans := [c2s2] }] rfl rfl).1

/-- Claim C3: after an Aggregate stage every spanset carries, under the
canonical name of the aggregation, an attribute equal to its scalar; and the
query filtering on .foo equal to a piped into count() greater than 1, on two
spansets retaining one and two spans, outputs exactly the second spanset
with scalar Int 2, the count() attribute Int 2 and the two retained
spans. -/
theorem scalar_filter_count_spec :
    (∀ (k : AggregateKind) (e : Option Expression) (input out : List Spanset),
      (SpansetExpr.aggregate k e).evaluate input = .ok out →
      ∀ ss ∈ out, ss.attrValue (canonicalName k e) = some ss.Scalar)
    ∧ Pipeline.evaluate
        ⟨[qFooEq "a",
          .scalarFilter (.aggregate .count Option.none) .OpGreater (.static (.int 1))]⟩
        [{ Spans := [sA, sB] }, c3In2] =
      .ok [{ Scalar := .int 2, Spans := [sA, sA],
             Attributes := some [("count()", .int 2)] }] := by
  constructor
  · intro k e input out h ss hss
    rw [aggregate_evaluate] at h
    obtain rfl : input.map (applyAggregate k e) = out := Except.ok.inj h
    rcases List.mem_map.mp hss with ⟨ss0, _, rfl⟩
    show (applyAggregate k e ss0).attrValue (canonicalName k e) =
      some (applyAggregate k e ss0).Scalar
    unfold applyAggregate
    rw [AddAttribute_attrValue_self, AddAttribute_Scalar]
  · rfl

/-- Claim C3 witness: the count aggregation applied to the spanset with the
two matching spans stores its scalar under the count() attribute key. -/
theorem scalar_filter_count_spec_witness :
    (applyAggregate .count Option.none c3In2).attrValue (canonicalName .count Option.none) =
      some (applyAggregate .count Option.none c3In2).Scalar :=
  scalar_filter_count_spec.1 .count Option.none [c3In2]
    [applyAggregate .count Option.none c3In2] rfl
    (applyAggregate .count Option.none c3In2) (List.mem_singleton.mpr rfl)

/-- Claim C4: a comparison with a Nil operand is a non-match, except
OpNotEqual with exactly one Nil side, which is true; a filter stage never
surfaces an error; and the query on .foo equal to the string bar, over a
span whose only attribute is fzz, drops the span and returns the empty
output without error. -/
theorem nil_comparison_spec :
    (∀ op : Operator, isCompOp op = true → ∀ v : Static,
      execBinary op .nil v =
        .bool (decide (op = Operator.OpNotEqual) && !(decide (v = Static.nil)))
      ∧ execBinary op v .nil =
        .bool (decide (op = Operator.OpNotEqual) && !(decide (v = Static.nil))))
    ∧ (∀ (e : Expression) (input : List Spanset), ∃ out,
        Pipeline.evaluate ⟨[.filter e]⟩ input = .ok out)
    ∧ Pipeline.evaluate
        ⟨[.filter (.binOp .OpEqual (.attr (NewAttribute "foo")) (.static (.str "bar")))]⟩
        [{ Spans := [mkSpan [] [(NewAttribute "fzz", .str "bar")]] }] = .ok [] := by
  refine ⟨?_, ?_, rfl⟩
  · intro op hop v
    constructor <;> cases v <;> simp [execBinary, hop, asFloat, compFallback]
  · intro e input
    obtain ⟨out, hout⟩ := filter_evaluate_ok e input
    exact ⟨out, by simp [Pipeline.evaluate, evalStages, hout]⟩

/-- Claim C4 witness: Nil compared to a string is false under OpEqual and
true under OpNotEqual. -/
theorem nil_comparison_spec_witness :
    execBinary .OpEqual .nil (.str "bar") = .bool false
    ∧ execBinary .OpNotEqual .nil (.str "bar") = .bool true :=
  ⟨(nil_comparison_spec.1 .OpEqual rfl (.str "bar")).1,
   (nil_comparison_spec.1 .OpNotEqual rfl (.str "bar")).1⟩

/-- Claim C5: an attribute lookup with scope None tries Span scope first,
then Resource scope, then a name-only match in any scope, first hit winning;
concretely, the query on .foo matches the span storing foo under Span scope
(and Span wins over a different Resource-scoped value), the query on .foo
matches a span storing foo only under Resource scope, and a query on
resource.foo does not match a span whose foo is only in Span scope. -/
theorem scope_resolution_spec :
    (∀ (sp : Span) (n : String) (v : Static),
      findExactKey ⟨.span, n, .none⟩ sp.attributes = some v →
      lookupAttribute sp (NewAttribute n) = v)
    ∧ (∀ (sp : Span) (n : String) (v : Static),
      findExactKey ⟨.span, n, .none⟩ sp.attributes = Option.none →
      findExactKey ⟨.resource, n, .none⟩ sp.attributes = some v →
      lookupAttribute sp (NewAttribute n) = v)
    ∧ (∀ (sp : Span) (n : String) (v : Static),
      findExactKey ⟨.span, n, .none⟩ sp.attributes = Option.none →
      findExactKey ⟨.resource, n, .none⟩ sp.attributes = Option.none →
      findNameAny n sp.attributes = some v →
      lookupAttribute sp (NewAttribute n) = v)
    ∧ Pipeline.evaluate ⟨[qFooEq "scope_span"]⟩ [{ Spans := [spanBoth] }] =
        .ok [{ Spans := [spanBoth] }]
    ∧ Pipeline.evaluate ⟨[qFooEq "scope_resource"]⟩ [{ Spans := [spanBoth] }] = .ok []
    ∧ Pipeline.evaluate ⟨[qFooEq "scope_resource"]⟩ [{ Spans := [spanResOnly] }] =
        .ok [{ Spans := [spanResOnly] }]
    ∧ Pipeline.evaluate
        ⟨[.filter (.binOp .OpEqual (.attr (NewScopedAttribute .resource "foo"))
            (.static (.str "scope_span")))]⟩
        [{ Spans := [spanSpanOnly] }] = .ok [] := by
  refine ⟨?_, ?_, ?_, rfl, rfl, rfl, rfl⟩
  · intro sp n v h1
    simp [lookupAttribute, NewAttribute, h1]
  · intro sp n v h1 h2
    simp [lookupAttribute, NewAttribute, h1, h2]
  · intro sp n v h1 h2 h3
    simp [lookupAttribute, NewAttribute, h1, h2, h3]

/-- Claim C5 witness: on the span carrying foo under both scopes, the
unscoped lookup returns the Span-scoped value. -/
theorem scope_resolution_spec_witness :
    lookupAttribute spanBoth (NewAttribute "foo") = .str "scope_span" :=
  scope_resolution_spec.1 spanBoth "foo" (.str "scope_span") rfl

/-- Claim C6: comparison of numeric values (Int, Float, Duration, promoted
to one numeric carrier) is symmetric for OpEqual and OpNotEqual, and OpLess
agrees with the flipped OpGreater; concretely, the query on .foo equal to 1,
to 1. and to 1ns each retains the spans carrying Int 1, Float 1 and
Duration 1ns. -/
theorem numeric_symmetry_spec (a b : Static)
    (ha : isNumericTag a = true) (hb : isNumericTag b = true) :
    execBinary .OpEqual a b = execBinary .OpEqual b a
    ∧ execBinary .OpNotEqual a b = execBinary .OpNotEqual b a
    ∧ execBinary .OpLess a b = execBinary .OpGreater b a
    ∧ Pipeline.evaluate ⟨[qFooEqV (.int 1)]⟩ [{ Spans := [si, sf, sd] }] =
        .ok [{ Spans := [si, sf, sd] }]
    ∧ Pipeline.evaluate ⟨[qFooEqV (.float 1)]⟩ [{ Spans := [si, sf, sd] }] =
        .ok [{ Spans := [si, sf, sd] }]
    ∧ Pipeline.evaluate ⟨[qFooEqV (.duration 1)]⟩ [{ Spans := [si, sf, sd] }] =
        .ok [{ Spans := [si, sf, sd] }] := by
  obtain ⟨qa, hqa⟩ := asFloat_isSome_of_numeric a ha
  obtain ⟨qb, hqb⟩ := asFloat_isSome_of_numeric b hb
  refine ⟨?_, ?_, ?_, rfl, rfl, rfl⟩
  · simp only [execBinary, isCompOp, if_true, hqa, hqb]
    rw [compRat_eq_symm]
  · simp only [execBinary, isCompOp, if_true, hqa, hqb]
    rw [compRat_neq_symm]
  · simp only [execBinary, isCompOp, if_true, hqa, hqb]
    rfl

/-- Claim C6 witness: symmetry of OpEqual at Int 1 against Float 1. -/
theorem numeric_symmetry_spec_witness :
    execBinary .OpEqual (.int 1) (.float 1) = execBinary .OpEqual (.float 1) (.int 1) :=
  (numeric_symmetry_spec (.int 1) (.float 1) rfl rfl).1

/-- Claim C7: SearchMetaConditions returns exactly the eight metadata
conditions, in order trace root service, trace root span, trace duration,
trace id, trace start time, span id, span start time and span duration,
each an intrinsic attribute with operator OpNone and no operands. -/
theorem searchMetaConditions_spec :
    SearchMetaConditions =
      [ ⟨⟨.none, "traceRootService", .traceRootService⟩, .OpNone, []⟩,
        ⟨⟨.none, "traceRootSpan", .traceRootSpan⟩, .OpNone, []⟩,
        ⟨⟨.none, "traceDuration", .traceDuration⟩, .OpNone, []⟩,
        ⟨⟨.none, "traceID", .traceID⟩, .OpNone, []⟩,
        ⟨⟨.none, "traceStartTime", .traceStartTime⟩, .OpNone, []⟩,
        ⟨⟨.none, "spanID", .spanID⟩, .OpNone, []⟩,
        ⟨⟨.none, "spanStartTime", .spanStartTime⟩, .OpNone, []⟩,
        ⟨⟨.none, "duration", .duration⟩, .OpNone, []⟩ ]
    ∧ SearchMetaConditions.length = 8
    ∧ ∀ c ∈ SearchMetaConditions,
        c.Op = Operator.OpNone ∧ c.Operands = [] ∧ c.Attribute.intrinsic ≠ Intrinsic.none := by
  refine ⟨rfl, rfl, ?_⟩
  decide

/-- Claim C8: whenever extraction succeeds, the must-variant returns the
extracted request with the identity second pass and the metadata second-pass
conditions installed; whenever extraction fails to parse, it aborts (the
none case); and the installed second pass maps a spanset to the one-element
sequence holding it, without error. -/
theorem mustExtract_spec (parse : String → Except String Pipeline) (q : String) :
    (∀ req, ExtractFetchSpansRequest parse q = .ok req →
      MustExtractFetchSpansRequestWithMetadata parse q =
        some { req with SecondPass := some secondPassIdentity,
                        SecondPassConditions := SearchMetaConditions })
    ∧ (∀ e, ExtractFetchSpansRequest parse q = .error e →
      MustExtractFetchSpansRequestWithMetadata parse q = Option.none)
    ∧ (∀ ss : Spanset, secondPassIdentity ss = .ok [ss]) := by
  refine ⟨?_, ?_, fun ss => rfl⟩
  · intro req h
    simp [MustExtractFetchSpansRequestWithMetadata, h]
  · intro e h
    simp [MustExtractFetchSpansRequestWithMetadata, h]

/-- Claim C8 witness: the must-variant at a parser accepting the empty
pipeline installs the identity second pass and the metadata conditions, at a
failing parser it aborts, and the identity pass wraps a spanset. -/
theorem mustExtract_spec_witness :
    MustExtractFetchSpansRequestWithMetadata parseOkEmpty "" =
      some { AllConditions := true, SecondPass := some secondPassIdentity,
             SecondPassConditions := SearchMetaConditions }
    ∧ MustExtractFetchSpansRequestWithMetadata parseFail "" = Option.none
    ∧ secondPassIdentity emptySpanset = .ok [emptySpanset] :=
  ⟨(mustExtract_spec parseOkEmpty "").1 { AllConditions := true } rfl,
   (mustExtract_spec parseFail "").2.1 "parse error" rfl,
   (mustExtract_spec parseOkEmpty "").2.2 emptySpanset⟩

/-- Claim C9: AddAttribute on a spanset never faults (a nil map is allocated
in the embedding by taking the fresh-map branch), stores the value at the
key, and leaves every other attribute entry and every other field of the
spanset unchanged. -/
theorem addAttribute_spec (s : Spanset) (k : String) (v : Static) :
    (s.AddAttribute k v).attrValue k = some v
    ∧ (∀ k', k' ≠ k → (s.AddAttribute k v).attrValue k' = s.attrValue k')
    ∧ (s.AddAttribute k v).Scalar = s.Scalar
    ∧ (s.AddAttribute k v).Spans = s.Spans
    ∧ (s.AddAttribute k v).TraceID = s.TraceID
    ∧ (s.AddAttribute k v).RootSpanName = s.RootSpanName
    ∧ (s.AddAttribute k v).RootServiceName = s.RootServiceName
    ∧ (s.AddAttribute k v).StartTimeUnixNanos = s.StartTimeUnixNanos
    ∧ (s.AddAttribute k v).DurationNanos = s.DurationNanos := by
  refine ⟨AddAttribute_attrValue_self s k v,
    fun k' h => AddAttribute_attrValue_ne s k k' v h,
    AddAttribute_Scalar s k v, ?_, ?_, ?_, ?_, ?_, ?_⟩
  all_goals cases hA : s.Attributes <;> simp [Spanset.AddAttribute, hA]

/-- Claim C9 witness: adding the count() attribute to the zero spanset (nil
map) stores it and leaves the key other unchanged. -/
theorem addAttribute_spec_witness :
    (emptySpanset.AddAttribute "count()" (.int 2)).attrValue "count()" = some (.int 2)
    ∧ (emptySpanset.AddAttribute "count()" (.int 2)).attrValue "other" =
        emptySpanset.attrValue "other" :=
  ⟨(addAttribute_spec emptySpanset "count()" (.int 2)).1,
   (addAttribute_spec emptySpanset "count()" (.int 2)).2.1 "other" (by decide)⟩

/-- Claim C10: the intrinsic string mapping round-trips over the fourteen
constants, and every string that is not the rendering of one of them maps to
IntrinsicNone. -/
theorem intrinsic_string_roundtrip :
    (∀ i : Intrinsic, intrinsicFromString (intrinsicToString i) = i)
    ∧ ∀ s : String, (∀ i : Intrinsic, intrinsicToString i ≠ s) →
        intrinsicFromString s = Intrinsic.none := by
  constructor
  · intro i
    cases i <;> rfl
  · intro s h
    unfold intrinsicFromString
    rw [if_neg (fun e => h .duration e.symm),
        if_neg (fun e => h .name e.symm),
        if_neg (fun e => h .status e.symm),
        if_neg (fun e => h .kind e.symm),
        if_neg (fun e => h .childCount e.symm),
        if_neg (fun e => h .parent e.symm),
        if_neg (fun e => h .traceRootService e.symm),
        if_neg (fun e => h .traceRootSpan e.symm),
        if_neg (fun e => h .traceDuration e.symm),
        if_neg (fun e => h .traceID e.symm),
        if_neg (fun e => h .traceStartTime e.symm),
        if_neg (fun e => h .spanID e.symm),
        if_neg (fun e => h .spanStartTime e.symm)]

/-- Claim C10 witness: the round trip at IntrinsicDuration, and the default
result at a string that renders no intrinsic. -/
theorem intrinsic_string_roundtrip_witness :
    intrinsicFromString (intrinsicToString Intrinsic.duration) = Intrinsic.duration
    ∧ intrinsicFromString "zzz" = Intrinsic.none :=
  ⟨intrinsic_string_roundtrip.1 Intrinsic.duration,
   intrinsic_string_roundtrip.2 "zzz" (by intro i; cases i <;> decide)⟩

end traceql



